import Mathlib

/-!
# Formal model of the library-catalog server (src/server.js)

The server is an Express application over a single Postgres table `books`.
Each HTTP handler performs exactly one SQL statement against the table, so we
model the store as an explicit `Catalog` value and each handler as a pure
function from its request data and the current catalog to a `Response`
together with the catalog after its single statement ran.  Timestamps
(`now()`) are passed in as an abstract tick `now : Nat`.
-/

namespace LibServer

/-- A row of the `books` table (see `ensureSchema` in src/server.js):
`id serial primary key`, `title text not null`, and nullable `author`,
`category`, `description`, `borrower` text columns; `borrowed_at` and
`returned_at` are nullable timestamps, modelled as abstract `Option Nat`
ticks. -/
structure BookRow where
  id : Nat
  title : String
  author : Option String
  category : Option String
  description : Option String
  is_borrowed : Bool
  borrower : Option String
  borrowed_at : Option Nat
  returned_at : Option Nat
  deriving DecidableEq

/-- The `books` table together with the state of the `serial` sequence
backing `id` (the next value `nextval` would produce). -/
structure Catalog where
  books : List BookRow
  nextId : Nat
  deriving DecidableEq

/-- The catalog right after `ensureSchema` on a fresh database: no rows,
serial sequence at 1. -/
def initCatalog : Catalog := ⟨[], 1⟩

/-- The external JSON shape produced by `mapRow`.  Timestamps stay abstract:
`some t` is rendered as an ISO-8601 string, `none` as `""`. -/
structure Book where
  id : Nat
  title : String
  author : String
  category : String
  description : String
  isBorrowed : Bool
  borrower : String
  borrowedAt : Option Nat
  returnedAt : Option Nat
  deriving DecidableEq

/-- The mapping `mapRow` from src/server.js.  `r.author || ""` collapses SQL NULL and
`''` to `""`, which is `Option.getD _ ""` here; `!!r.is_borrowed` is the
identity on our `Bool` column. -/
def mapRow (r : BookRow) : Book :=
  { id := r.id
    title := r.title
    author := r.author.getD ""
    category := r.category.getD ""
    description := r.description.getD ""
    isBorrowed := r.is_borrowed
    borrower := r.borrower.getD ""
    borrowedAt := r.borrowed_at
    returnedAt := r.returned_at }

/-- JSON bodies the handlers produce. -/
inductive Body where
  | book : Book → Body
  | books : List Book → Body
  | okTrue : Body
  | err : String → Body
  deriving DecidableEq

/-- An HTTP response: status code and JSON body. -/
structure Response where
  status : Nat
  body : Body
  deriving DecidableEq

/-- JavaScript truthiness of a possibly-absent string: `undefined` and `""`
are falsy, every other string is truthy. -/
def jsTruthy : Option String → Bool
  | none => false
  | some s => !(s == "")

/-- JavaScript `a || b` restricted to possibly-absent strings: the left
operand if truthy, otherwise the right operand. -/
def jsOr (a b : Option String) : Option String := if jsTruthy a then a else b

/-- The key expression of `okAdmin`:
`req.headers["x-admin-key"] || req.body?.adminKey || req.query?.adminKey`. -/
def adminKeyOf (hkey bkey qkey : Option String) : Option String :=
  jsOr hkey (jsOr bkey qkey)

/-- The check `okAdmin` from src/server.js: the request passes iff the selected key
strictly equals the configured secret (`key !== ADMIN_KEY` fails, and an
absent key can never equal a string). -/
def okAdmin (secret : String) (hkey bkey qkey : Option String) : Bool :=
  adminKeyOf hkey bkey qkey == some secret

/-- The response `okAdmin` sends when the key check fails. -/
def unauthorized : Response := ⟨401, .err "unauthorized"⟩

/-- One `UPDATE … WHERE cond … RETURNING *` statement, executed atomically:
the first component is the returned (already updated) rows, the second the
table afterwards.  The `WHERE` clause is evaluated against the state before
the statement, as a single indivisible operation. -/
def sqlUpdate (cond : BookRow → Bool) (f : BookRow → BookRow)
    (cat : Catalog) : List BookRow × Catalog :=
  ((cat.books.filter cond).map f,
   ⟨cat.books.map fun b => if cond b then f b else b, cat.nextId⟩)

/-- The `SET` clause of the borrow statement:
`is_borrowed=true, borrower=$2, borrowed_at=now(), returned_at=null`. -/
def borrowUpd (name : String) (now : Nat) (b : BookRow) : BookRow :=
  { b with is_borrowed := true, borrower := some name,
           borrowed_at := some now, returned_at := none }

/-- The `SET` clause of the return statement:
`is_borrowed=false, borrower='', returned_at=now()` (`borrowed_at` is not
touched). -/
def returnUpd (now : Nat) (b : BookRow) : BookRow :=
  { b with is_borrowed := false, borrower := some "", returned_at := some now }

/-- The expression `(req.body?.borrower || "unknown").toString()`: an absent or empty
borrower field falls back to `"unknown"`. -/
def resolveBorrower (nameField : Option String) : String :=
  match nameField with
  | none => "unknown"
  | some s => if s = "" then "unknown" else s

/-- Handler of `POST /api/borrow/:id`.  `hkey`, `bkey`, `qkey` are the three
admin-key sources; `nameField` is `req.body?.borrower`. -/
def borrowHandler (secret : String) (hkey bkey qkey : Option String)
    (id : Nat) (nameField : Option String) (now : Nat) (cat : Catalog) :
    Response × Catalog :=
  if !okAdmin secret hkey bkey qkey then (unauthorized, cat)
  else
    let borrower := resolveBorrower nameField
    let r := sqlUpdate (fun b => b.id == id && b.is_borrowed == false)
      (borrowUpd borrower now) cat
    match r.1 with
    | [] => (⟨400, .err "not found or already borrowed"⟩, r.2)
    | row :: _ => (⟨200, .book (mapRow row)⟩, r.2)

/-- Handler of `POST /api/return/:id`. -/
def returnHandler (secret : String) (hkey bkey qkey : Option String)
    (id : Nat) (now : Nat) (cat : Catalog) : Response × Catalog :=
  if !okAdmin secret hkey bkey qkey then (unauthorized, cat)
  else
    let r := sqlUpdate (fun b => b.id == id && b.is_borrowed == true)
      (returnUpd now) cat
    match r.1 with
    | [] => (⟨400, .err "not found or not borrowed"⟩, r.2)
    | row :: _ => (⟨200, .book (mapRow row)⟩, r.2)

/-- The row inserted by
`insert into books (title,author,category,description,is_borrowed) values ($1,$2,$3,$4,false)`:
the destructuring defaults make absent optional fields `""`; `id` comes from
the serial sequence; `borrower` and the timestamps keep their NULL default. -/
def newRow (title author category description : Option String) (n : Nat) :
    BookRow :=
  { id := n
    title := title.getD ""
    author := some (author.getD "")
    category := some (category.getD "")
    description := some (description.getD "")
    is_borrowed := false
    borrower := none
    borrowed_at := none
    returned_at := none }

/-- Handler of `POST /api/books`.  The body fields are the destructuring
`const { title, author = "", category = "", description = "" } = req.body || {}`;
`title` has no default and is then checked with `if (!title)`. -/
def createHandler (secret : String) (hkey bkey qkey : Option String)
    (title author category description : Option String) (cat : Catalog) :
    Response × Catalog :=
  if !okAdmin secret hkey bkey qkey then (unauthorized, cat)
  else if !jsTruthy title then (⟨400, .err "title required"⟩, cat)
  else
    let row := newRow title author category description cat.nextId
    (⟨200, .book (mapRow row)⟩, ⟨cat.books ++ [row], cat.nextId + 1⟩)

/-- SQL `coalesce(param, column)` for a nullable column: the parameter when
it is non-null, otherwise the column's current value. -/
def coalesceN (x y : Option String) : Option String :=
  match x with
  | some s => some s
  | none => y

/-- The `SET` clause of the update statement: each of the four catalogue
fields is `coalesce(supplied, current)`; no other column appears. -/
def updateRow (t a c d : Option String) (b : BookRow) : BookRow :=
  { b with title := t.getD b.title
           author := coalesceN a b.author
           category := coalesceN c b.category
           description := coalesceN d b.description }

/-- Handler of `PUT /api/books/:id`. -/
def updateHandler (secret : String) (hkey bkey qkey : Option String)
    (id : Nat) (t a c d : Option String) (cat : Catalog) :
    Response × Catalog :=
  if !okAdmin secret hkey bkey qkey then (unauthorized, cat)
  else
    let r := sqlUpdate (fun b => b.id == id) (updateRow t a c d) cat
    match r.1 with
    | [] => (⟨404, .err "not found"⟩, r.2)
    | row :: _ => (⟨200, .book (mapRow row)⟩, r.2)

/-- Handler of `DELETE /api/books/:id`: one `DELETE … WHERE id=$1`, then
`if (!rowCount) 404`. -/
def deleteHandler (secret : String) (hkey bkey qkey : Option String)
    (id : Nat) (cat : Catalog) : Response × Catalog :=
  if !okAdmin secret hkey bkey qkey then (unauthorized, cat)
  else
    let n := (cat.books.filter (fun b => b.id == id)).length
    let cat' : Catalog := ⟨cat.books.filter (fun b => !(b.id == id)), cat.nextId⟩
    if n = 0 then (⟨404, .err "not found"⟩, cat')
    else (⟨200, .okTrue⟩, cat')

/-- Characters of a string, lower-cased: the model of SQL `lower(s)`. -/
def lowerChars (s : String) : List Char := s.data.map Char.toLower

/-- SQL `LIKE` matching of a pattern against a subject, both as character
lists.  `%` matches any (possibly empty) sequence — equivalently the rest of
the pattern must match some suffix of the subject; `_` matches exactly one
character; the default escape character `\` makes the following pattern
character literal.  (Postgres raises an error on a pattern ending in a lone
escape character; we model that corner as a non-match, and no theorem below
depends on it.) -/
def likeMatch : List Char → List Char → Bool
  | [], s => s.isEmpty
  | c :: p, s =>
    if c = '%' then s.tails.any (fun t => likeMatch p t)
    else
      match s with
      | [] => false
      | e :: s' =>
        if c = '_' then likeMatch p s'
        else if c = '\\' then
          match p with
          | [] => false
          | d :: p' => (d == e) && likeMatch p' s'
        else (c == e) && likeMatch p s'

/-- The pattern of the search query: `lower('%' + q + '%')` — lower-casing a
string lowers its characters and leaves `%` alone. -/
def likePattern (q : String) : List Char := '%' :: (lowerChars q ++ ['%'])

/-- The comparison `lower(col) like lower($1)` for a nullable column: a NULL column makes
the comparison NULL, which `WHERE` treats as not selected. -/
def colLike (q : String) : Option String → Bool
  | none => false
  | some s => likeMatch (likePattern q) (lowerChars s)

/-- The `WHERE` clause of the search statement: the `LIKE` disjunction over
title, author and category (title is the NOT NULL column). -/
def rowMatches (q : String) (b : BookRow) : Bool :=
  likeMatch (likePattern q) (lowerChars b.title)
    || colLike q b.author || colLike q b.category

/-- The ordering relation of `ORDER BY id ASC` on rows. -/
def idLE (a b : BookRow) : Prop := a.id ≤ b.id

instance : DecidableRel idLE := fun a b => Nat.decLe a.id b.id

instance : IsTotal BookRow idLE := ⟨fun a b => Nat.le_total a.id b.id⟩

instance : IsTrans BookRow idLE := ⟨fun _ _ _ h₁ h₂ => Nat.le_trans h₁ h₂⟩

/-- The effect of `ORDER BY id ASC`: sort the selected rows by ascending id. -/
def sortById (l : List BookRow) : List BookRow := List.insertionSort idLE l

/-- JavaScript `String.prototype.trim`: strip leading and trailing
whitespace (modelled for the ASCII whitespace characters). -/
def jsTrim (s : String) : String :=
  ⟨((s.data.dropWhile Char.isWhitespace).reverse.dropWhile
      Char.isWhitespace).reverse⟩

/-- Handler of `GET /api/books` (no admin key is consulted):
`const q = (req.query.q || "").toString().trim()`; a truthy `q` runs the
`LIKE` query, otherwise all rows are selected; both `ORDER BY id ASC`. -/
def listHandler (qraw : Option String) (cat : Catalog) : Response :=
  let q := jsTrim (qraw.getD "")
  if q = "" then ⟨200, .books ((sortById cat.books).map mapRow)⟩
  else ⟨200, .books ((sortById (cat.books.filter (rowMatches q))).map mapRow)⟩

/-- One mutating API call with its request data (the three admin-key
sources, the path/body parameters, and the `now()` tick for the lifecycle
statements). -/
inductive Op where
  | createOp (hkey bkey qkey : Option String) (t a c d : Option String)
  | updateOp (hkey bkey qkey : Option String) (id : Nat) (t a c d : Option String)
  | deleteOp (hkey bkey qkey : Option String) (id : Nat)
  | borrowOp (hkey bkey qkey : Option String) (id : Nat) (nameField : Option String) (now : Nat)
  | returnOp (hkey bkey qkey : Option String) (id : Nat) (now : Nat)

/-- The catalog after one mutating API call. -/
def applyOp (secret : String) (cat : Catalog) : Op → Catalog
  | .createOp h b q t a c d => (createHandler secret h b q t a c d cat).2
  | .updateOp h b q id t a c d => (updateHandler secret h b q id t a c d cat).2
  | .deleteOp h b q id => (deleteHandler secret h b q id cat).2
  | .borrowOp h b q id nf now => (borrowHandler secret h b q id nf now cat).2
  | .returnOp h b q id now => (returnHandler secret h b q id now cat).2

/-- The catalog reached from the empty catalog by a sequence of API calls. -/
def runOps (secret : String) (ops : List Op) : Catalog :=
  ops.foldl (applyOp secret) initCatalog

/-- Primary-key and serial-sequence well-formedness: ids are pairwise
distinct and below the next serial value.  Every reachable catalog satisfies
this; it is what the `primary key` constraint and the `serial` sequence
guarantee. -/
def WFCat (cat : Catalog) : Prop :=
  (cat.books.map (fun b => b.id)).Nodup ∧ ∀ b ∈ cat.books, b.id < cat.nextId

instance : DecidablePred WFCat := fun cat => by
  unfold WFCat
  infer_instance

/-- Spec-side reading (§6): a key is *supplied* by a source when it is
present and non-empty. -/
def suppliedKey : Option String → Option String
  | none => none
  | some s => if s = "" then none else some s

/-- Spec-side reading (§6): the admin key is taken from the header
`x-admin-key`, else the body field `adminKey`, else the query parameter
`adminKey`, in that precedence.  To be compared with `adminKeyOf`, which is
embedded from the code. -/
def specAdminKey (hkey bkey qkey : Option String) : Option String :=
  match suppliedKey hkey with
  | some s => some s
  | none =>
    match suppliedKey bkey with
    | some s => some s
    | none => suppliedKey qkey

/-- Spec-side reading of the search contract: the query appears
case-insensitively as a substring of `s`. -/
def ciSubstr (q s : String) : Prop := lowerChars q <:+: lowerChars s

instance (q s : String) : Decidable (ciSubstr q s) :=
  inferInstanceAs (Decidable (lowerChars q <:+: lowerChars s))

/-- Spec-side reading of the search contract on the external book shape:
the query appears case-insensitively in the title, the author, or the
category. -/
def specMatch (q : String) (bk : Book) : Prop :=
  ciSubstr q bk.title ∨ ciSubstr q bk.author ∨ ciSubstr q bk.category

instance (q : String) (bk : Book) : Decidable (specMatch q bk) :=
  inferInstanceAs (Decidable (_ ∨ _ ∨ _))

/-- A query containing none of the `LIKE` metacharacters `%`, `_` and the
escape character `\`. -/
def cleanQuery (q : String) : Prop :=
  ∀ c ∈ q.data, c ≠ '%' ∧ c ≠ '_' ∧ c ≠ '\\'

instance (q : String) : Decidable (cleanQuery q) :=
  inferInstanceAs (Decidable (∀ c ∈ q.data, _ ∧ _ ∧ _))

/-- The spec's per-book invariant (§3): either the book is not borrowed and
its (externally visible) borrower is empty, or it is borrowed and the
borrower is non-empty. -/
def BookInv (b : BookRow) : Prop :=
  (b.is_borrowed = false ∧ b.borrower.getD "" = "") ∨
  (b.is_borrowed = true ∧ b.borrower.getD "" ≠ "")

instance : DecidablePred BookInv := fun b => by
  unfold BookInv
  infer_instance

/-- Demo data: an available book. -/
def bAvail : BookRow :=
  ⟨1, "Dune", some "Herbert", some "scifi", some "", false, none, none, none⟩

/-- Demo data: a borrowed book. -/
def bBorrowed : BookRow :=
  ⟨2, "The Hobbit", some "Tolkien", some "fantasy", some "", true,
   some "Bob", some 3, none⟩

/-- Demo catalog holding one available and one borrowed book. -/
def demoCat : Catalog := ⟨[bAvail, bBorrowed], 3⟩

/-- Demo data: a book whose title `"abc"` is matched by the wildcard query
`"a_c"` although `"a_c"` is not a substring of it. -/
def wildBook : BookRow :=
  ⟨1, "abc", some "", some "", some "", false, none, none, none⟩

/-- Demo catalog for the wildcard counterexample. -/
def wildCat : Catalog := ⟨[wildBook], 2⟩

theorem likeMatch_pct (p : List Char) (s : List Char) :
    likeMatch ('%' :: p) s = s.tails.any (fun t => likeMatch p t) := by
  cases s with
  | nil =>
    simp [likeMatch]
  | cons e s' =>
    cases p with
    | nil => simp [likeMatch]
    | cons d p' => simp [likeMatch]

theorem likeMatch_lit {c : Char} (h1 : c ≠ '%') (h2 : c ≠ '_') (h3 : c ≠ '\\')
    (p s : List Char) :
    likeMatch (c :: p) s =
      match s with
      | [] => false
      | e :: s' => (c == e) && likeMatch p s' := by
  cases s with
  | nil =>
    simp only [likeMatch]
    rw [if_neg h1]
  | cons e s' =>
    cases p with
    | nil =>
      simp only [likeMatch]
      rw [if_neg h1, if_neg h2, if_neg h3]
    | cons d p' =>
      simp only [likeMatch]
      rw [if_neg h1, if_neg h2, if_neg h3]

theorem likeMatch_pct_iff (p s : List Char) :
    likeMatch ('%' :: p) s = true ↔ ∃ t, t <:+ s ∧ likeMatch p t = true := by
  rw [likeMatch_pct, List.any_eq_true]
  simp only [List.mem_tails]

theorem likeMatch_lit_iff (q : List Char)
    (hq : ∀ c ∈ q, c ≠ '%' ∧ c ≠ '_' ∧ c ≠ '\\') (s : List Char) :
    likeMatch (q ++ ['%']) s = true ↔ q <+: s := by
  induction q generalizing s with
  | nil =>
    rw [List.nil_append, likeMatch_pct_iff]
    constructor
    · intro _
      exact List.nil_prefix
    · intro _
      exact ⟨[], List.nil_suffix, rfl⟩
  | cons c q ih =>
    obtain ⟨h1, h2, h3⟩ := hq c (List.mem_cons_self c q)
    rw [List.cons_append, likeMatch_lit h1 h2 h3]
    cases s with
    | nil => simp
    | cons e s' =>
      rw [List.cons_prefix_cons]
      simp only [Bool.and_eq_true, beq_iff_eq]
      rw [ih (fun x hx => hq x (List.mem_cons_of_mem c hx)) s']

theorem likeMatch_clean_iff (q s : List Char)
    (hq : ∀ c ∈ q, c ≠ '%' ∧ c ≠ '_' ∧ c ≠ '\\') :
    likeMatch ('%' :: (q ++ ['%'])) s = true ↔ q <:+: s := by
  rw [likeMatch_pct_iff, List.infix_iff_prefix_suffix]
  constructor
  · rintro ⟨t, ht1, ht2⟩
    exact ⟨t, (likeMatch_lit_iff q hq t).mp ht2, ht1⟩
  · rintro ⟨t, ht1, ht2⟩
    exact ⟨t, ht2, (likeMatch_lit_iff q hq t).mpr ht1⟩

theorem charToLowerFix (c m : Char) (hm : m.toNat < 97 ∨ 122 < m.toNat)
    (h : c.toLower = m) : c = m := by
  simp only [Char.toLower] at h
  split at h
  · exfalso
    rename_i hc
    have h2 := congrArg Char.toNat h
    have hval : (c.toNat + 32).isValidChar := by
      left
      omega
    have hv : (Char.ofNat (c.toNat + 32)).toNat = c.toNat + 32 := by
      unfold Char.ofNat
      rw [dif_pos hval]
      simp [Char.ofNatAux, Char.toNat, UInt32.toNat]
    rw [hv] at h2
    omega
  · exact h

theorem cleanQuery_lower {q : String} (hq : cleanQuery q) :
    ∀ c ∈ lowerChars q, c ≠ '%' ∧ c ≠ '_' ∧ c ≠ '\\' := by
  intro c hc
  simp only [lowerChars, List.mem_map] at hc
  obtain ⟨d, hd, rfl⟩ := hc
  obtain ⟨p1, p2, p3⟩ := hq d hd
  refine ⟨fun h => p1 ?_, fun h => p2 ?_, fun h => p3 ?_⟩
  · exact charToLowerFix d '%' (by decide) h
  · exact charToLowerFix d '_' (by decide) h
  · exact charToLowerFix d '\\' (by decide) h

theorem data_ne_nil {q : String} (h : q ≠ "") : q.data ≠ [] := by
  intro hd
  apply h
  cases q with
  | mk l =>
    simp only [String.data] at hd
    rw [hd]

theorem rowMatches_iff {q : String} (hq : cleanQuery q) (hne : q ≠ "")
    (b : BookRow) : rowMatches q b = true ↔ specMatch q (mapRow b) := by
  have hcl := cleanQuery_lower hq
  have htitle : likeMatch (likePattern q) (lowerChars b.title) = true ↔
      ciSubstr q b.title := likeMatch_clean_iff _ _ hcl
  have hcol : ∀ o : Option String, colLike q o = true ↔ ciSubstr q (o.getD "") := by
    intro o
    cases o with
    | none =>
      simp only [colLike]
      constructor
      · intro h
        exact absurd h Bool.false_ne_true
      · intro h
        exfalso
        have h1 : lowerChars q = [] := List.infix_nil.mp h
        exact data_ne_nil hne (List.map_eq_nil_iff.mp h1)
    | some s => exact likeMatch_clean_iff _ _ hcl
  simp only [rowMatches, Bool.or_eq_true, htitle, hcol, specMatch, mapRow, or_assoc]


theorem eq_of_id_eq {l : List BookRow} (hn : (l.map (fun b => b.id)).Nodup)
    {b y : BookRow} (hb : b ∈ l) (hy : y ∈ l) (h : y.id = b.id) : y = b :=
  List.inj_on_of_nodup_map hn hy hb h

theorem filter_key_unique {l : List BookRow}
    (hn : (l.map (fun b => b.id)).Nodup) {b : BookRow} (hb : b ∈ l)
    (p : BookRow → Bool) (hpb : p b = true)
    (hkey : ∀ x ∈ l, p x = true → x.id = b.id) : l.filter p = [b] := by
  induction l with
  | nil => cases hb
  | cons c t ih =>
    have hnt : (t.map (fun b => b.id)).Nodup := hn.of_cons
    rcases List.mem_cons.mp hb with rfl | hbt
    · rw [List.filter_cons_of_pos hpb]
      have hrest : t.filter p = [] := by
        rw [List.filter_eq_nil_iff]
        intro x hx hpx
        have hid : x.id = b.id := hkey x (List.mem_cons_of_mem b hx) hpx
        have : b.id ∈ t.map (fun b => b.id) := hid ▸ List.mem_map_of_mem _ hx
        exact (List.nodup_cons.mp hn).1 this
      rw [hrest]
    · have hpc : p c = false := by
        by_contra hpc
        have hpc' : p c = true := by
          cases hc2 : p c
          · exact absurd hc2 hpc
          · rfl
        have hid : c.id = b.id := hkey c (List.mem_cons_self c t) hpc'
        have : c.id ∈ t.map (fun b => b.id) := by
          rw [hid]
          exact List.mem_map_of_mem _ hbt
        exact (List.nodup_cons.mp hn).1 this
      rw [List.filter_cons_of_neg (by simp [hpc])]
      exact ih hnt hbt (fun x hx hpx => hkey x (List.mem_cons_of_mem c hx) hpx)

theorem map_cond_id {l : List BookRow} {p : BookRow → Bool}
    (h : ∀ x ∈ l, p x = false) (f : BookRow → BookRow) :
    (l.map fun x => if p x then f x else x) = l := by
  have := List.map_congr_left (l := l) (f := fun x => if p x then f x else x)
    (g := id) (fun x hx => by simp [h x hx])
  simpa using this

theorem map_cond_eq_update {l : List BookRow}
    (hn : (l.map (fun b => b.id)).Nodup) {b : BookRow} (hb : b ∈ l)
    (p : BookRow → Bool) (hpb : p b = true)
    (hkey : ∀ x ∈ l, p x = true → x.id = b.id) (f : BookRow → BookRow) :
    (l.map fun x => if p x then f x else x) =
      (l.map fun x => if x = b then f x else x) := by
  apply List.map_congr_left
  intro x hx
  by_cases hxb : x = b
  · subst hxb
    rw [if_pos hpb, if_pos rfl]
  · have hpx : p x = false := by
      cases hc : p x
      · rfl
      · exact absurd (eq_of_id_eq hn hb hx (hkey x hx hc)) hxb
    rw [if_neg (by simp [hpx]), if_neg hxb]

theorem resolveBorrower_ne (nf : Option String) : resolveBorrower nf ≠ "" := by
  cases nf with
  | none => simp [resolveBorrower]
  | some s =>
    simp only [resolveBorrower]
    split
    · simp
    · assumption


theorem borrowHandler_fail {secret : String} {hk bk qk : Option String}
    {id : Nat} (nf : Option String) (now : Nat) {cat : Catalog}
    (hauth : okAdmin secret hk bk qk = true)
    (hno : ∀ x ∈ cat.books, x.id = id → x.is_borrowed = true) :
    borrowHandler secret hk bk qk id nf now cat =
      (⟨400, .err "not found or already borrowed"⟩, cat) := by
  have hfalse : ∀ x ∈ cat.books,
      (x.id == id && x.is_borrowed == false) = false := by
    intro x hx
    cases hpx : (x.id == id && x.is_borrowed == false) with
    | false => rfl
    | true =>
      exfalso
      simp only [Bool.and_eq_true, beq_iff_eq] at hpx
      rw [hno x hx hpx.1] at hpx
      exact absurd hpx.2 (by simp)
  have hfil : cat.books.filter
      (fun b => b.id == id && b.is_borrowed == false) = [] := by
    rw [List.filter_eq_nil_iff]
    intro x hx hpx
    rw [hfalse x hx] at hpx
    cases hpx
  have hmap := map_cond_id hfalse (borrowUpd (resolveBorrower nf) now)
  simp only [borrowHandler, sqlUpdate, hauth, Bool.not_true,
    Bool.false_eq_true, if_false, hfil, List.map_nil, hmap]

theorem borrowHandler_success {secret : String} {hk bk qk : Option String}
    {id : Nat} (nf : Option String) (now : Nat) {cat : Catalog}
    {b : BookRow} (hauth : okAdmin secret hk bk qk = true)
    (hwf : WFCat cat) (hb : b ∈ cat.books) (hid : b.id = id)
    (hav : b.is_borrowed = false) :
    borrowHandler secret hk bk qk id nf now cat =
      (⟨200, .book (mapRow (borrowUpd (resolveBorrower nf) now b))⟩,
       ⟨cat.books.map fun x =>
          if x = b then borrowUpd (resolveBorrower nf) now x else x,
        cat.nextId⟩) := by
  have hpb : (b.id == id && b.is_borrowed == false) = true := by
    simp [hid, hav]
  have hkey : ∀ x ∈ cat.books,
      (x.id == id && x.is_borrowed == false) = true → x.id = b.id := by
    intro x hx hpx
    simp only [Bool.and_eq_true, beq_iff_eq] at hpx
    rw [hpx.1, hid]
  have hfil := filter_key_unique hwf.1 hb _ hpb hkey
  have hmap := map_cond_eq_update hwf.1 hb _ hpb hkey
    (borrowUpd (resolveBorrower nf) now)
  simp only [borrowHandler, sqlUpdate, hauth, Bool.not_true,
    Bool.false_eq_true, if_false, hfil, hmap, List.map_cons, List.map_nil]

theorem returnHandler_fail {secret : String} {hk bk qk : Option String}
    {id : Nat} (now : Nat) {cat : Catalog}
    (hauth : okAdmin secret hk bk qk = true)
    (hno : ∀ x ∈ cat.books, x.id = id → x.is_borrowed = false) :
    returnHandler secret hk bk qk id now cat =
      (⟨400, .err "not found or not borrowed"⟩, cat) := by
  have hfalse : ∀ x ∈ cat.books,
      (x.id == id && x.is_borrowed == true) = false := by
    intro x hx
    cases hpx : (x.id == id && x.is_borrowed == true) with
    | false => rfl
    | true =>
      exfalso
      simp only [Bool.and_eq_true, beq_iff_eq] at hpx
      rw [hno x hx hpx.1] at hpx
      exact absurd hpx.2 (by simp)
  have hfil : cat.books.filter
      (fun b => b.id == id && b.is_borrowed == true) = [] := by
    rw [List.filter_eq_nil_iff]
    intro x hx hpx
    rw [hfalse x hx] at hpx
    cases hpx
  have hmap := map_cond_id hfalse (returnUpd now)
  simp only [returnHandler, sqlUpdate, hauth, Bool.not_true,
    Bool.false_eq_true, if_false, hfil, List.map_nil, hmap]

theorem returnHandler_success {secret : String} {hk bk qk : Option String}
    {id : Nat} (now : Nat) {cat : Catalog} {b : BookRow}
    (hauth : okAdmin secret hk bk qk = true) (hwf : WFCat cat)
    (hb : b ∈ cat.books) (hid : b.id = id) (hbor : b.is_borrowed = true) :
    returnHandler secret hk bk qk id now cat =
      (⟨200, .book (mapRow (returnUpd now b))⟩,
       ⟨cat.books.map fun x => if x = b then returnUpd now x else x,
        cat.nextId⟩) := by
  have hpb : (b.id == id && b.is_borrowed == true) = true := by
    simp [hid, hbor]
  have hkey : ∀ x ∈ cat.books,
      (x.id == id && x.is_borrowed == true) = true → x.id = b.id := by
    intro x hx hpx
    simp only [Bool.and_eq_true, beq_iff_eq] at hpx
    rw [hpx.1, hid]
  have hfil := filter_key_unique hwf.1 hb _ hpb hkey
  have hmap := map_cond_eq_update hwf.1 hb _ hpb hkey (returnUpd now)
  simp only [returnHandler, sqlUpdate, hauth, Bool.not_true,
    Bool.false_eq_true, if_false, hfil, hmap, List.map_cons, List.map_nil]

theorem updateHandler_notfound {secret : String} {hk bk qk : Option String}
    {id : Nat} (t a c d : Option String) {cat : Catalog}
    (hauth : okAdmin secret hk bk qk = true)
    (hno : ∀ x ∈ cat.books, x.id ≠ id) :
    updateHandler secret hk bk qk id t a c d cat =
      (⟨404, .err "not found"⟩, cat) := by
  have hfalse : ∀ x ∈ cat.books, (x.id == id) = false := by
    intro x hx
    simpa using hno x hx
  have hfil : cat.books.filter (fun b => b.id == id) = [] := by
    rw [List.filter_eq_nil_iff]
    intro x hx hpx
    rw [hfalse x hx] at hpx
    cases hpx
  have hmap := map_cond_id hfalse (updateRow t a c d)
  simp only [updateHandler, sqlUpdate, hauth, Bool.not_true,
    Bool.false_eq_true, if_false, hfil, List.map_nil, hmap]

theorem updateHandler_found {secret : String} {hk bk qk : Option String}
    {id : Nat} (t a c d : Option String) {cat : Catalog} {b : BookRow}
    (hauth : okAdmin secret hk bk qk = true) (hwf : WFCat cat)
    (hb : b ∈ cat.books) (hid : b.id = id) :
    updateHandler secret hk bk qk id t a c d cat =
      (⟨200, .book (mapRow (updateRow t a c d b))⟩,
       ⟨cat.books.map fun x => if x = b then updateRow t a c d x else x,
        cat.nextId⟩) := by
  have hpb : (b.id == id) = true := by
    simp [hid]
  have hkey : ∀ x ∈ cat.books, (x.id == id) = true → x.id = b.id := by
    intro x hx hpx
    simp only [beq_iff_eq] at hpx
    rw [hpx, hid]
  have hfil := filter_key_unique hwf.1 hb _ hpb hkey
  have hmap := map_cond_eq_update hwf.1 hb _ hpb hkey (updateRow t a c d)
  simp only [updateHandler, sqlUpdate, hauth, Bool.not_true,
    Bool.false_eq_true, if_false, hfil, hmap, List.map_cons, List.map_nil]

theorem createHandler_ok {secret : String} {hk bk qk : Option String}
    {title : Option String} (a c d : Option String) {cat : Catalog}
    (hauth : okAdmin secret hk bk qk = true) (ht : jsTruthy title = true) :
    createHandler secret hk bk qk title a c d cat =
      (⟨200, .book (mapRow (newRow title a c d cat.nextId))⟩,
       ⟨cat.books ++ [newRow title a c d cat.nextId], cat.nextId + 1⟩) := by
  simp [createHandler, hauth, ht]

theorem createHandler_badtitle {secret : String} {hk bk qk : Option String}
    {title : Option String} (a c d : Option String) {cat : Catalog}
    (hauth : okAdmin secret hk bk qk = true) (ht : jsTruthy title = false) :
    createHandler secret hk bk qk title a c d cat =
      (⟨400, .err "title required"⟩, cat) := by
  simp [createHandler, hauth, ht]


theorem borrowHandler_snd (secret : String) (hk bk qk : Option String)
    (id : Nat) (nf : Option String) (now : Nat) (cat : Catalog) :
    (borrowHandler secret hk bk qk id nf now cat).2 =
      if okAdmin secret hk bk qk then
        ⟨cat.books.map fun x =>
            if x.id == id && x.is_borrowed == false
            then borrowUpd (resolveBorrower nf) now x else x,
          cat.nextId⟩
      else cat := by
  by_cases h : okAdmin secret hk bk qk = true
  · simp only [borrowHandler, sqlUpdate, h, Bool.not_true, Bool.false_eq_true,
      if_false, if_true]
    split <;> rfl
  · simp only [Bool.not_eq_true] at h
    simp only [borrowHandler, h, Bool.not_false, if_true, Bool.false_eq_true,
      if_false]

theorem returnHandler_snd (secret : String) (hk bk qk : Option String)
    (id : Nat) (now : Nat) (cat : Catalog) :
    (returnHandler secret hk bk qk id now cat).2 =
      if okAdmin secret hk bk qk then
        ⟨cat.books.map fun x =>
            if x.id == id && x.is_borrowed == true then returnUpd now x else x,
          cat.nextId⟩
      else cat := by
  by_cases h : okAdmin secret hk bk qk = true
  · simp only [returnHandler, sqlUpdate, h, Bool.not_true, Bool.false_eq_true,
      if_false, if_true]
    split <;> rfl
  · simp only [Bool.not_eq_true] at h
    simp only [returnHandler, h, Bool.not_false, if_true, Bool.false_eq_true,
      if_false]

theorem updateHandler_snd (secret : String) (hk bk qk : Option String)
    (id : Nat) (t a c d : Option String) (cat : Catalog) :
    (updateHandler secret hk bk qk id t a c d cat).2 =
      if okAdmin secret hk bk qk then
        ⟨cat.books.map fun x =>
            if x.id == id then updateRow t a c d x else x,
          cat.nextId⟩
      else cat := by
  by_cases h : okAdmin secret hk bk qk = true
  · simp only [updateHandler, sqlUpdate, h, Bool.not_true, Bool.false_eq_true,
      if_false, if_true]
    split <;> rfl
  · simp only [Bool.not_eq_true] at h
    simp only [updateHandler, h, Bool.not_false, if_true, Bool.false_eq_true,
      if_false]

theorem deleteHandler_snd (secret : String) (hk bk qk : Option String)
    (id : Nat) (cat : Catalog) :
    (deleteHandler secret hk bk qk id cat).2 =
      if okAdmin secret hk bk qk then
        ⟨cat.books.filter fun b => !(b.id == id), cat.nextId⟩
      else cat := by
  by_cases h : okAdmin secret hk bk qk = true
  · simp only [deleteHandler, h, Bool.not_true, Bool.false_eq_true, if_false,
      if_true]
    split <;> rfl
  · simp only [Bool.not_eq_true] at h
    simp only [deleteHandler, h, Bool.not_false, if_true, Bool.false_eq_true,
      if_false]

theorem createHandler_snd (secret : String) (hk bk qk : Option String)
    (title a c d : Option String) (cat : Catalog) :
    (createHandler secret hk bk qk title a c d cat).2 =
      if okAdmin secret hk bk qk && jsTruthy title then
        ⟨cat.books ++ [newRow title a c d cat.nextId], cat.nextId + 1⟩
      else cat := by
  by_cases h : okAdmin secret hk bk qk = true
  · by_cases ht : jsTruthy title = true
    · simp [createHandler, h, ht]
    · simp only [Bool.not_eq_true] at ht
      simp [createHandler, h, ht]
  · simp only [Bool.not_eq_true] at h
    simp [createHandler, h]


theorem resolveBorrower_eq (nf : Option String) :
    resolveBorrower nf = if nf.getD "" = "" then "unknown" else nf.getD "" := by
  cases nf with
  | none => simp [resolveBorrower]
  | some s => rfl

theorem bookInv_applyOp (secret : String) (cat : Catalog) (op : Op)
    (hinv : ∀ b ∈ cat.books, BookInv b) :
    ∀ x ∈ (applyOp secret cat op).books, BookInv x := by
  cases op with
  | createOp hk bk qk t a c d =>
    intro x hx
    rw [applyOp, createHandler_snd] at hx
    split at hx
    · rcases List.mem_append.mp hx with hx1 | hx2
      · exact hinv x hx1
      · rw [List.mem_singleton.mp hx2]
        left
        exact ⟨rfl, rfl⟩
    · exact hinv x hx
  | updateOp hk bk qk id t a c d =>
    intro x hx
    rw [applyOp, updateHandler_snd] at hx
    split at hx
    · rcases List.mem_map.mp hx with ⟨y, hy, rfl⟩
      split
      · rcases hinv y hy with ⟨h1, h2⟩ | ⟨h1, h2⟩
        · left
          exact ⟨h1, h2⟩
        · right
          exact ⟨h1, h2⟩
      · exact hinv y hy
    · exact hinv x hx
  | deleteOp hk bk qk id =>
    intro x hx
    rw [applyOp, deleteHandler_snd] at hx
    split at hx
    · exact hinv x (List.mem_filter.mp hx).1
    · exact hinv x hx
  | borrowOp hk bk qk id nf now =>
    intro x hx
    rw [applyOp, borrowHandler_snd] at hx
    split at hx
    · rcases List.mem_map.mp hx with ⟨y, hy, rfl⟩
      split
      · right
        refine ⟨rfl, ?_⟩
        simpa [borrowUpd] using resolveBorrower_ne nf
      · exact hinv y hy
    · exact hinv x hx
  | returnOp hk bk qk id now =>
    intro x hx
    rw [applyOp, returnHandler_snd] at hx
    split at hx
    · rcases List.mem_map.mp hx with ⟨y, hy, rfl⟩
      split
      · left
        exact ⟨rfl, rfl⟩
      · exact hinv y hy
    · exact hinv x hx

theorem bookInv_foldl (secret : String) (ops : List Op) (cat : Catalog)
    (hinv : ∀ b ∈ cat.books, BookInv b) :
    ∀ b ∈ (ops.foldl (applyOp secret) cat).books, BookInv b := by
  induction ops generalizing cat with
  | nil => exact hinv
  | cons op rest ih =>
    rw [List.foldl_cons]
    exact ih _ (bookInv_applyOp secret cat op hinv)

theorem createHandler_unauth {secret : String} {hk bk qk : Option String}
    (t a c d : Option String) (cat : Catalog)
    (hbad : okAdmin secret hk bk qk = false) :
    createHandler secret hk bk qk t a c d cat = (unauthorized, cat) := by
  simp [createHandler, hbad]

theorem updateHandler_unauth {secret : String} {hk bk qk : Option String}
    (id : Nat) (t a c d : Option String) (cat : Catalog)
    (hbad : okAdmin secret hk bk qk = false) :
    updateHandler secret hk bk qk id t a c d cat = (unauthorized, cat) := by
  simp [updateHandler, hbad]

theorem deleteHandler_unauth {secret : String} {hk bk qk : Option String}
    (id : Nat) (cat : Catalog) (hbad : okAdmin secret hk bk qk = false) :
    deleteHandler secret hk bk qk id cat = (unauthorized, cat) := by
  simp [deleteHandler, hbad]

theorem borrowHandler_unauth {secret : String} {hk bk qk : Option String}
    (id : Nat) (nf : Option String) (now : Nat) (cat : Catalog)
    (hbad : okAdmin secret hk bk qk = false) :
    borrowHandler secret hk bk qk id nf now cat = (unauthorized, cat) := by
  simp [borrowHandler, hbad]

theorem returnHandler_unauth {secret : String} {hk bk qk : Option String}
    (id : Nat) (now : Nat) (cat : Catalog)
    (hbad : okAdmin secret hk bk qk = false) :
    returnHandler secret hk bk qk id now cat = (unauthorized, cat) := by
  simp [returnHandler, hbad]


/-- C1: on an authorised request against a well-formed catalog, the borrow
operation succeeds (HTTP 200) exactly when a record with the given id exists
and is Available, and on success it sets the state to Borrowed, the borrower
to the given name (or `"unknown"` when the name is absent or empty),
`borrowed_at` to the current time, clears `returned_at`, and returns the
updated record. -/
theorem borrow_lifecycle_spec (secret : String) (hk bk qk : Option String)
    (id : Nat) (nf : Option String) (now : Nat) (cat : Catalog)
    (hauth : okAdmin secret hk bk qk = true) (hwf : WFCat cat) :
    ((borrowHandler secret hk bk qk id nf now cat).1.status = 200 ↔
      ∃ b ∈ cat.books, b.id = id ∧ b.is_borrowed = false) ∧
    (∀ b ∈ cat.books, b.id = id → b.is_borrowed = false →
      borrowHandler secret hk bk qk id nf now cat =
        (⟨200, .book (mapRow { b with
            is_borrowed := true
            borrower := some (if nf.getD "" = "" then "unknown" else nf.getD "")
            borrowed_at := some now
            returned_at := none })⟩,
         ⟨cat.books.map fun x =>
            if x = b then { x with
              is_borrowed := true
              borrower :=
                some (if nf.getD "" = "" then "unknown" else nf.getD "")
              borrowed_at := some now
              returned_at := none } else x,
          cat.nextId⟩)) := by
  constructor
  · constructor
    · intro h200
      by_contra hno
      push_neg at hno
      have hno' : ∀ x ∈ cat.books, x.id = id → x.is_borrowed = true := by
        intro x hx hxid
        have hne := hno x hx hxid
        cases hbx : x.is_borrowed
        · exact absurd hbx hne
        · rfl
      rw [borrowHandler_fail nf now hauth hno'] at h200
      simp at h200
    · rintro ⟨b, hb, hid, hav⟩
      rw [borrowHandler_success nf now hauth hwf hb hid hav]
  · intro b hb hid hav
    rw [borrowHandler_success nf now hauth hwf hb hid hav, resolveBorrower_eq]
    rfl

/-- Witness for C1: borrowing the available book of the demo catalog
succeeds. -/
theorem borrow_lifecycle_spec_witness :
    (borrowHandler "admin123" (some "admin123") none none 1 (some "Ann") 7
      demoCat).1.status = 200 :=
  (borrow_lifecycle_spec "admin123" (some "admin123") none none 1 (some "Ann")
      7 demoCat (by decide) (by decide)).1.mpr
    ⟨bAvail, by decide, by decide, by decide⟩

/-- C3: on an authorised request, when the borrow precondition fails (id
missing or already Borrowed) or the return precondition fails (id missing or
not Borrowed), the operation leaves the catalog unchanged and responds with
HTTP 400 and the single conflated message. -/
theorem conflict_failure_spec (secret : String) (hk bk qk : Option String)
    (idB idR : Nat) (nf : Option String) (nowB nowR : Nat) (cat : Catalog)
    (hauth : okAdmin secret hk bk qk = true) :
    (¬(∃ b ∈ cat.books, b.id = idB ∧ b.is_borrowed = false) →
      borrowHandler secret hk bk qk idB nf nowB cat =
        (⟨400, .err "not found or already borrowed"⟩, cat)) ∧
    (¬(∃ b ∈ cat.books, b.id = idR ∧ b.is_borrowed = true) →
      returnHandler secret hk bk qk idR nowR cat =
        (⟨400, .err "not found or not borrowed"⟩, cat)) := by
  constructor
  · intro hno
    push_neg at hno
    refine borrowHandler_fail nf nowB hauth ?_
    intro x hx hxid
    have hne := hno x hx hxid
    cases hbx : x.is_borrowed
    · exact absurd hbx hne
    · rfl
  · intro hno
    push_neg at hno
    refine returnHandler_fail nowR hauth ?_
    intro x hx hxid
    have hne := hno x hx hxid
    cases hbx : x.is_borrowed
    · rfl
    · exact absurd hbx hne

/-- Witness for C3: borrowing the already-borrowed demo book and returning
the available one both fail with the conflated messages, leaving the catalog
unchanged. -/
theorem conflict_failure_spec_witness :
    borrowHandler "admin123" (some "admin123") none none 2 none 7 demoCat =
      (⟨400, .err "not found or already borrowed"⟩, demoCat) ∧
    returnHandler "admin123" (some "admin123") none none 1 9 demoCat =
      (⟨400, .err "not found or not borrowed"⟩, demoCat) :=
  ⟨(conflict_failure_spec "admin123" (some "admin123") none none 2 1 none 7 9
      demoCat (by decide)).1 (by decide),
   (conflict_failure_spec "admin123" (some "admin123") none none 2 1 none 7 9
      demoCat (by decide)).2 (by decide)⟩

/-- C4: on an authorised request against a well-formed catalog, the return
operation succeeds (HTTP 200) exactly when a record with the given id exists
and is Borrowed, and on success it sets the state to Available, empties the
borrower, sets `returned_at` to the current time, leaves `borrowed_at`
unchanged, and returns the updated record. -/
theorem return_lifecycle_spec (secret : String) (hk bk qk : Option String)
    (id : Nat) (now : Nat) (cat : Catalog)
    (hauth : okAdmin secret hk bk qk = true) (hwf : WFCat cat) :
    ((returnHandler secret hk bk qk id now cat).1.status = 200 ↔
      ∃ b ∈ cat.books, b.id = id ∧ b.is_borrowed = true) ∧
    (∀ b ∈ cat.books, b.id = id → b.is_borrowed = true →
      returnHandler secret hk bk qk id now cat =
        (⟨200, .book (mapRow { b with
            is_borrowed := false
            borrower := some ""
            returned_at := some now })⟩,
         ⟨cat.books.map fun x =>
            if x = b then { x with
              is_borrowed := false
              borrower := some ""
              returned_at := some now } else x,
          cat.nextId⟩)) := by
  constructor
  · constructor
    · intro h200
      by_contra hno
      push_neg at hno
      have hno' : ∀ x ∈ cat.books, x.id = id → x.is_borrowed = false := by
        intro x hx hxid
        have hne := hno x hx hxid
        cases hbx : x.is_borrowed
        · rfl
        · exact absurd hbx hne
      rw [returnHandler_fail now hauth hno'] at h200
      simp at h200
    · rintro ⟨b, hb, hid, hbor⟩
      rw [returnHandler_success now hauth hwf hb hid hbor]
  · intro b hb hid hbor
    rw [returnHandler_success now hauth hwf hb hid hbor]
    rfl

/-- Witness for C4: returning the borrowed book of the demo catalog
succeeds. -/
theorem return_lifecycle_spec_witness :
    (returnHandler "admin123" (some "admin123") none none 2 9
      demoCat).1.status = 200 :=
  (return_lifecycle_spec "admin123" (some "admin123") none none 2 9 demoCat
      (by decide) (by decide)).1.mpr ⟨bBorrowed, by decide, by decide, by decide⟩

/-- C2: two borrow requests for the same available book, each being one
atomic conditional update against the shared store, can be interleaved only
as one of the two serial orders; in either order the first one succeeds, the
second receives the conflict response and changes nothing, and every
observable state after the first has the book borrowed exactly once, by the
first requester. -/
theorem borrow_concurrent_exclusive (secret : String)
    (hk1 bk1 qk1 hk2 bk2 qk2 : Option String) (id : Nat)
    (nf1 nf2 : Option String) (t1 t2 : Nat) (cat : Catalog) (b : BookRow)
    (hauth1 : okAdmin secret hk1 bk1 qk1 = true)
    (hauth2 : okAdmin secret hk2 bk2 qk2 = true)
    (hwf : WFCat cat) (hb : b ∈ cat.books) (hid : b.id = id)
    (hav : b.is_borrowed = false) :
    (borrowHandler secret hk1 bk1 qk1 id nf1 t1 cat).1.status = 200 ∧
    borrowHandler secret hk2 bk2 qk2 id nf2 t2
        (borrowHandler secret hk1 bk1 qk1 id nf1 t1 cat).2 =
      (⟨400, .err "not found or already borrowed"⟩,
       (borrowHandler secret hk1 bk1 qk1 id nf1 t1 cat).2) ∧
    (∀ x ∈ (borrowHandler secret hk1 bk1 qk1 id nf1 t1 cat).2.books,
      x.id = id → x.is_borrowed = true ∧
        x.borrower = some (resolveBorrower nf1)) := by
  have h1 := borrowHandler_success nf1 t1 hauth1 hwf hb hid hav
  have hafter : ∀ x ∈ (borrowHandler secret hk1 bk1 qk1 id nf1 t1 cat).2.books,
      x.id = id → x.is_borrowed = true ∧
        x.borrower = some (resolveBorrower nf1) := by
    rw [h1]
    intro x hx hxid
    rcases List.mem_map.mp hx with ⟨y, hy, rfl⟩
    by_cases hyb : y = b
    · subst hyb
      rw [if_pos rfl]
      exact ⟨rfl, rfl⟩
    · rw [if_neg hyb] at hxid
      exact absurd (eq_of_id_eq hwf.1 hb hy (hxid.trans hid.symm)) hyb
  refine ⟨?_, ?_, hafter⟩
  · rw [h1]
  · refine borrowHandler_fail nf2 t2 hauth2 ?_
    intro x hx hxid
    exact (hafter x hx hxid).1

/-- Witness for C2: two concrete borrow requests for the demo catalog's
available book; the second one conflicts. -/
theorem borrow_concurrent_exclusive_witness :
    borrowHandler "admin123" (some "admin123") none none 1 (some "Bea") 8
        (borrowHandler "admin123" (some "admin123") none none 1 (some "Ann") 7
          demoCat).2 =
      (⟨400, .err "not found or already borrowed"⟩,
       (borrowHandler "admin123" (some "admin123") none none 1 (some "Ann") 7
         demoCat).2) :=
  (borrow_concurrent_exclusive "admin123" (some "admin123") none none
      (some "admin123") none none 1 (some "Ann") (some "Bea") 7 8 demoCat
      bAvail (by decide) (by decide) (by decide) (by decide) (by decide)
      (by decide)).2.1


/-- C5: in every catalog reachable from the empty catalog by create, update,
delete, borrow and return calls, every book satisfies exactly one of: not
borrowed with an empty (externally visible) borrower, or borrowed with a
non-empty borrower; no operation produces an intermediate state. -/
theorem borrow_state_invariant (secret : String) (ops : List Op) :
    ∀ b ∈ (runOps secret ops).books,
      Xor' (b.is_borrowed = false ∧ (mapRow b).borrower = "")
        (b.is_borrowed = true ∧ (mapRow b).borrower ≠ "") := by
  intro b hb
  have hbase : ∀ x ∈ initCatalog.books, BookInv x := by
    intro x hx
    cases hx
  have hinv : BookInv b := bookInv_foldl secret ops initCatalog hbase b hb
  rcases hinv with ⟨h1, h2⟩ | ⟨h1, h2⟩
  · left
    refine ⟨⟨h1, h2⟩, ?_⟩
    rintro ⟨hc, -⟩
    rw [h1] at hc
    cases hc
  · right
    refine ⟨⟨h1, h2⟩, ?_⟩
    rintro ⟨hc, -⟩
    rw [h1] at hc
    cases hc

/-- Witness for C5: the book obtained by one create and one borrow call from
the empty catalog satisfies the invariant. -/
theorem borrow_state_invariant_witness :
    Xor'
      ((⟨1, "T", some "", some "", some "", true, some "Ann", some 7, none⟩ :
          BookRow).is_borrowed = false ∧
        (mapRow ⟨1, "T", some "", some "", some "", true, some "Ann", some 7,
          none⟩).borrower = "")
      ((⟨1, "T", some "", some "", some "", true, some "Ann", some 7, none⟩ :
          BookRow).is_borrowed = true ∧
        (mapRow ⟨1, "T", some "", some "", some "", true, some "Ann", some 7,
          none⟩).borrower ≠ "") :=
  borrow_state_invariant "k"
    [Op.createOp (some "k") none none (some "T") none none none,
     Op.borrowOp (some "k") none none 1 (some "Ann") 7] _ (by decide)

/-- C7: on an authorised request, create fails with HTTP 400
`"title required"` and persists nothing when the title is absent or empty;
otherwise it persists and returns a new book with a fresh unique id,
`isBorrowed` false, and author, category and description defaulting to the
empty string when not supplied. -/
theorem create_spec (secret : String) (hk bk qk : Option String)
    (title a c d : Option String) (cat : Catalog)
    (hauth : okAdmin secret hk bk qk = true) :
    ((title = none ∨ title = some "") →
      createHandler secret hk bk qk title a c d cat =
        (⟨400, .err "title required"⟩, cat)) ∧
    (∀ t, title = some t → t ≠ "" →
      createHandler secret hk bk qk title a c d cat =
        (⟨200, .book (mapRow (newRow title a c d cat.nextId))⟩,
         ⟨cat.books ++ [newRow title a c d cat.nextId], cat.nextId + 1⟩) ∧
      (mapRow (newRow title a c d cat.nextId)).isBorrowed = false ∧
      (mapRow (newRow title a c d cat.nextId)).title = t ∧
      (mapRow (newRow title a c d cat.nextId)).author = a.getD "" ∧
      (mapRow (newRow title a c d cat.nextId)).category = c.getD "" ∧
      (mapRow (newRow title a c d cat.nextId)).description = d.getD "" ∧
      (WFCat cat →
        (newRow title a c d cat.nextId).id ∉
          cat.books.map (fun x => x.id))) := by
  constructor
  · intro h
    have ht : jsTruthy title = false := by
      rcases h with rfl | rfl
      · rfl
      · decide
    exact createHandler_badtitle a c d hauth ht
  · intro t ht hne
    subst ht
    have htt : jsTruthy (some t) = true := by
      simp [jsTruthy, hne]
    refine ⟨createHandler_ok a c d hauth htt, rfl, rfl, rfl, rfl, rfl, ?_⟩
    intro hwf hmem
    rcases List.mem_map.mp hmem with ⟨y, hy, hyid⟩
    have hlt := hwf.2 y hy
    have h3 : y.id = cat.nextId := hyid
    rw [h3] at hlt
    exact absurd hlt (lt_irrefl _)

/-- Witness for C7: creating with an absent title fails and persists
nothing. -/
theorem create_spec_witness :
    createHandler "admin123" (some "admin123") none none none none none none
      demoCat = (⟨400, .err "title required"⟩, demoCat) :=
  (create_spec "admin123" (some "admin123") none none none none none none
      demoCat (by decide)).1 (Or.inl rfl)

/-- C8: on an authorised request, update of an existing id changes exactly
the supplied catalogue fields, keeps every unsupplied field and never touches
id, borrow state, borrower or the timestamps; update of a missing id fails
with HTTP 404 and changes nothing. -/
theorem update_spec (secret : String) (hk bk qk : Option String) (id : Nat)
    (t a c d : Option String) (cat : Catalog)
    (hauth : okAdmin secret hk bk qk = true) :
    ((∀ x ∈ cat.books, x.id ≠ id) →
      updateHandler secret hk bk qk id t a c d cat =
        (⟨404, .err "not found"⟩, cat)) ∧
    (WFCat cat → ∀ b ∈ cat.books, b.id = id →
      updateHandler secret hk bk qk id t a c d cat =
        (⟨200, .book (mapRow (updateRow t a c d b))⟩,
         ⟨cat.books.map fun x => if x = b then updateRow t a c d x else x,
          cat.nextId⟩) ∧
      (updateRow t a c d b).id = b.id ∧
      (updateRow t a c d b).is_borrowed = b.is_borrowed ∧
      (updateRow t a c d b).borrower = b.borrower ∧
      (updateRow t a c d b).borrowed_at = b.borrowed_at ∧
      (updateRow t a c d b).returned_at = b.returned_at ∧
      (t = none → (updateRow t a c d b).title = b.title) ∧
      (∀ s, t = some s → (updateRow t a c d b).title = s) ∧
      (a = none → (updateRow t a c d b).author = b.author) ∧
      (∀ s, a = some s → (updateRow t a c d b).author = some s) ∧
      (c = none → (updateRow t a c d b).category = b.category) ∧
      (∀ s, c = some s → (updateRow t a c d b).category = some s) ∧
      (d = none → (updateRow t a c d b).description = b.description) ∧
      (∀ s, d = some s → (updateRow t a c d b).description = some s)) := by
  constructor
  · intro hno
    exact updateHandler_notfound t a c d hauth hno
  · intro hwf b hb hid
    refine ⟨updateHandler_found t a c d hauth hwf hb hid, rfl, rfl, rfl, rfl,
      rfl, ?_, ?_, ?_, ?_, ?_, ?_, ?_, ?_⟩
    · rintro rfl
      rfl
    · rintro s rfl
      rfl
    · rintro rfl
      rfl
    · rintro s rfl
      rfl
    · rintro rfl
      rfl
    · rintro s rfl
      rfl
    · rintro rfl
      rfl
    · rintro s rfl
      rfl

/-- Witness for C8: updating the title of the demo catalog's first book
succeeds. -/
theorem update_spec_witness :
    (updateHandler "admin123" (some "admin123") none none 1 (some "New") none
      none none demoCat).1.status = 200 := by
  have h := (update_spec "admin123" (some "admin123") none none 1 (some "New")
      none none none demoCat (by decide)).2 (by decide) bAvail (by decide)
      (by decide)
  rw [h.1]

/-- C10: when the supplied admin key does not match the secret, every
mutating handler responds 401 `unauthorized` and leaves the catalog
untouched — before any validation or store access; in particular an
unauthorised create with a missing title yields 401, not the 400 validation
error. -/
theorem unauthorized_first_spec (secret : String) (hk bk qk : Option String)
    (id : Nat) (t a c d nf : Option String) (nowB nowR : Nat) (cat : Catalog)
    (hbad : okAdmin secret hk bk qk = false) :
    createHandler secret hk bk qk t a c d cat = (unauthorized, cat) ∧
    updateHandler secret hk bk qk id t a c d cat = (unauthorized, cat) ∧
    deleteHandler secret hk bk qk id cat = (unauthorized, cat) ∧
    borrowHandler secret hk bk qk id nf nowB cat = (unauthorized, cat) ∧
    returnHandler secret hk bk qk id nowR cat = (unauthorized, cat) ∧
    createHandler secret hk bk qk none a c d cat = (unauthorized, cat) :=
  ⟨createHandler_unauth t a c d cat hbad,
   updateHandler_unauth id t a c d cat hbad,
   deleteHandler_unauth id cat hbad,
   borrowHandler_unauth id nf nowB cat hbad,
   returnHandler_unauth id nowR cat hbad,
   createHandler_unauth none a c d cat hbad⟩

/-- Witness for C10: an unauthorised create with a missing title yields 401,
not 400, and changes nothing. -/
theorem unauthorized_first_spec_witness :
    createHandler "admin123" (some "wrong") none none none none none none
      demoCat = (unauthorized, demoCat) :=
  (unauthorized_first_spec "admin123" (some "wrong") none none 1 none none
      none none none 7 9 demoCat (by decide)).2.2.2.2.2


theorem okAdmin_iff_spec {secret : String} (hs : secret ≠ "")
    (hk bk qk : Option String) :
    okAdmin secret hk bk qk = true ↔ specAdminKey hk bk qk = some secret := by
  rcases hk with _ | s1 <;> rcases bk with _ | s2 <;> rcases qk with _ | s3 <;>
    simp [okAdmin, adminKeyOf, jsOr, jsTruthy, specAdminKey, suppliedKey] <;>
    (try split_ifs) <;> (try simp_all) <;> aesop

theorem createHandler_status {secret : String} {hk bk qk : Option String}
    (t a c d : Option String) (cat : Catalog)
    (h : okAdmin secret hk bk qk = true) :
    (createHandler secret hk bk qk t a c d cat).1.status = 200 ∨
      (createHandler secret hk bk qk t a c d cat).1.status = 400 := by
  by_cases ht : jsTruthy t = true
  · rw [createHandler_ok a c d h ht]
    left
    rfl
  · simp only [Bool.not_eq_true] at ht
    rw [createHandler_badtitle a c d h ht]
    right
    rfl

theorem updateHandler_status {secret : String} {hk bk qk : Option String}
    (id : Nat) (t a c d : Option String) (cat : Catalog)
    (h : okAdmin secret hk bk qk = true) :
    (updateHandler secret hk bk qk id t a c d cat).1.status = 200 ∨
      (updateHandler secret hk bk qk id t a c d cat).1.status = 404 := by
  simp only [updateHandler, sqlUpdate, h, Bool.not_true, Bool.false_eq_true,
    if_false]
  split
  · right
    rfl
  · left
    rfl

theorem deleteHandler_status {secret : String} {hk bk qk : Option String}
    (id : Nat) (cat : Catalog) (h : okAdmin secret hk bk qk = true) :
    (deleteHandler secret hk bk qk id cat).1.status = 200 ∨
      (deleteHandler secret hk bk qk id cat).1.status = 404 := by
  simp only [deleteHandler, h, Bool.not_true, Bool.false_eq_true, if_false]
  split
  · right
    rfl
  · left
    rfl

theorem borrowHandler_status {secret : String} {hk bk qk : Option String}
    (id : Nat) (nf : Option String) (now : Nat) (cat : Catalog)
    (h : okAdmin secret hk bk qk = true) :
    (borrowHandler secret hk bk qk id nf now cat).1.status = 200 ∨
      (borrowHandler secret hk bk qk id nf now cat).1.status = 400 := by
  simp only [borrowHandler, sqlUpdate, h, Bool.not_true, Bool.false_eq_true,
    if_false]
  split
  · right
    rfl
  · left
    rfl

theorem returnHandler_status {secret : String} {hk bk qk : Option String}
    (id : Nat) (now : Nat) (cat : Catalog)
    (h : okAdmin secret hk bk qk = true) :
    (returnHandler secret hk bk qk id now cat).1.status = 200 ∨
      (returnHandler secret hk bk qk id now cat).1.status = 400 := by
  simp only [returnHandler, sqlUpdate, h, Bool.not_true, Bool.false_eq_true,
    if_false]
  split
  · right
    rfl
  · left
    rfl

theorem listHandler_status (qraw : Option String) (cat : Catalog) :
    (listHandler qraw cat).status = 200 := by
  simp only [listHandler]
  split <;> rfl


/-- C9: the admin key is read from the header `x-admin-key`, else the body
field `adminKey`, else the query parameter `adminKey`, in that precedence
(the first supplied, i.e. present and non-empty, source wins); each mutating
handler responds 401 `unauthorized` exactly when the resulting key does not
equal the configured secret; the read-only list operation consults no key
and always answers 200. -/
theorem admin_auth_spec (secret : String) (hs : secret ≠ "")
    (hk bk qk : Option String) (id : Nat) (t a c d nf : Option String)
    (nowB nowR : Nat) (qraw : Option String) (cat : Catalog) :
    (okAdmin secret hk bk qk = true ↔ specAdminKey hk bk qk = some secret) ∧
    ((createHandler secret hk bk qk t a c d cat).1 = unauthorized ↔
      okAdmin secret hk bk qk = false) ∧
    ((updateHandler secret hk bk qk id t a c d cat).1 = unauthorized ↔
      okAdmin secret hk bk qk = false) ∧
    ((deleteHandler secret hk bk qk id cat).1 = unauthorized ↔
      okAdmin secret hk bk qk = false) ∧
    ((borrowHandler secret hk bk qk id nf nowB cat).1 = unauthorized ↔
      okAdmin secret hk bk qk = false) ∧
    ((returnHandler secret hk bk qk id nowR cat).1 = unauthorized ↔
      okAdmin secret hk bk qk = false) ∧
    (listHandler qraw cat).status = 200 := by
  have hiff : ∀ r : Response × Catalog,
      (okAdmin secret hk bk qk = true →
        r.1.status = 200 ∨ r.1.status = 400 ∨ r.1.status = 404) →
      (okAdmin secret hk bk qk = false → r = (unauthorized, cat)) →
      (r.1 = unauthorized ↔ okAdmin secret hk bk qk = false) := by
    intro r hst hun
    constructor
    · intro hu
      cases hok : okAdmin secret hk bk qk
      · rfl
      · exfalso
        have h401 : r.1.status = 401 := by
          rw [hu]
          rfl
        rcases hst hok with h2 | h2 | h2 <;> rw [h2] at h401 <;>
          exact absurd h401 (by decide)
    · intro hf
      rw [hun hf]
  refine ⟨okAdmin_iff_spec hs hk bk qk, ?_, ?_, ?_, ?_, ?_,
    listHandler_status qraw cat⟩
  · exact hiff _
      (fun h => (createHandler_status t a c d cat h).elim Or.inl
        (fun x => Or.inr (Or.inl x)))
      (fun h => createHandler_unauth t a c d cat h)
  · exact hiff _
      (fun h => (updateHandler_status id t a c d cat h).elim Or.inl
        (fun x => Or.inr (Or.inr x)))
      (fun h => updateHandler_unauth id t a c d cat h)
  · exact hiff _
      (fun h => (deleteHandler_status id cat h).elim Or.inl
        (fun x => Or.inr (Or.inr x)))
      (fun h => deleteHandler_unauth id cat h)
  · exact hiff _
      (fun h => (borrowHandler_status id nf nowB cat h).elim Or.inl
        (fun x => Or.inr (Or.inl x)))
      (fun h => borrowHandler_unauth id nf nowB cat h)
  · exact hiff _
      (fun h => (returnHandler_status id nowR cat h).elim Or.inl
        (fun x => Or.inr (Or.inl x)))
      (fun h => returnHandler_unauth id nowR cat h)

/-- Witness for C9: an empty header key falls through to the body key, which
matches the secret. -/
theorem admin_auth_spec_witness :
    okAdmin "admin123" (some "") (some "admin123") none = true ↔
      specAdminKey (some "") (some "admin123") none = some "admin123" :=
  (admin_auth_spec "admin123" (by decide) (some "") (some "admin123") none 1
      none none none none none 7 9 none demoCat).1

/-- C6 counterexample: the non-empty query `"a_c"` is not a case-insensitive
substring of any searchable field of the only book, yet the search returns
that book — `_` acts as a `LIKE` single-character wildcard, refuting the
claim as stated. -/
theorem list_search_cex :
    listHandler (some "a_c") wildCat = ⟨200, .books [mapRow wildBook]⟩ ∧
    ¬ specMatch "a_c" (mapRow wildBook) ∧ ("a_c" : String) ≠ "" :=
  ⟨by decide, by decide, by decide⟩

/-- C6 amended: the search always answers 200 (an empty result is a success);
a query that trims to empty returns all books ordered by ascending id; a
query that trims to a non-empty string free of the `LIKE` metacharacters
`%`, `_` and the escape character returns exactly the books whose title, author or
category contains the trimmed query case-insensitively, ordered by ascending
id. -/
theorem list_search_amended (qraw : Option String) (cat : Catalog) :
    (listHandler qraw cat).status = 200 ∧
    (jsTrim (qraw.getD "") = "" →
      ∃ l : List BookRow, listHandler qraw cat = ⟨200, .books (l.map mapRow)⟩ ∧
        l.Perm cat.books ∧ l.Sorted idLE) ∧
    (∀ q : String, jsTrim (qraw.getD "") = q → q ≠ "" → cleanQuery q →
      ∃ l : List BookRow, listHandler qraw cat = ⟨200, .books (l.map mapRow)⟩ ∧
        l.Perm (cat.books.filter fun b => decide (specMatch q (mapRow b))) ∧
        l.Sorted idLE) := by
  refine ⟨listHandler_status qraw cat, ?_, ?_⟩
  · intro h
    refine ⟨sortById cat.books, ?_, ?_, ?_⟩
    · simp [listHandler, h]
    · exact List.perm_insertionSort idLE cat.books
    · exact List.sorted_insertionSort idLE cat.books
  · intro q hq hne hclean
    refine ⟨sortById (cat.books.filter (rowMatches q)), ?_, ?_, ?_⟩
    · simp [listHandler, hq, hne]
    · have hfc : cat.books.filter (rowMatches q) =
          cat.books.filter (fun b => decide (specMatch q (mapRow b))) := by
        apply List.filter_congr
        intro x hx
        have hiff := rowMatches_iff hclean hne x
        cases hd : decide (specMatch q (mapRow x)) with
        | true => exact hiff.mpr (of_decide_eq_true hd)
        | false =>
          cases hr : rowMatches q x
          · rfl
          · exact absurd (decide_eq_true (hiff.mp hr)) (by simp [hd])
      rw [hfc]
      exact List.perm_insertionSort idLE _
    · exact List.sorted_insertionSort idLE _

/-- Witness for C6 amended: searching the demo catalog for `" tolkien "`
(trimming applies) returns exactly the Tolkien book. -/
theorem list_search_amended_witness :
    ∃ l : List BookRow, listHandler (some " tolkien ") demoCat =
        ⟨200, .books (l.map mapRow)⟩ ∧
      l.Perm (demoCat.books.filter fun b =>
        decide (specMatch "tolkien" (mapRow b))) ∧
      l.Sorted idLE :=
  (list_search_amended (some " tolkien ") demoCat).2.2 "tolkien" (by decide)
    (by decide) (by decide)

end LibServer
